import Mathlib

/-!
Verification of the helmet-detection pipeline (`src/app/api/detect/route.tsx`,
`src/lib/server-utils` / `src/lib/types`).

The TypeScript source is shallowly embedded: JavaScript numbers are modelled by
`ℚ` extended with `NaN` / `±Infinity` where coercion matters, JSON values by the
inductive `JVal`, multipart form data by an association list, and every
effectful collaborator (filesystem, database, external vision model) by an
explicit outcome argument, exactly at the boundary where the source consumes
its result.
-/

unseal Rat.ofScientific Rat.add Rat.sub Rat.mul Rat.inv

namespace Helmet

/-! ## JavaScript value model -/

/-- A JSON value, as produced by `JSON.parse`: `null`, booleans, (finite)
numbers, strings, arrays and objects.  Objects are association lists of
string keys; the source never relies on duplicate keys. -/
inductive JVal : Type where
  | null : JVal
  | bool (b : Bool) : JVal
  | num (q : ℚ) : JVal
  | str (s : String) : JVal
  | arr (l : List JVal) : JVal
  | obj (o : List (String × JVal)) : JVal

/-- Outcome of JavaScript `Number(·)` coercion: `NaN`, `±Infinity`, or a
finite value (modelled as a rational — exact, whereas JS uses binary doubles;
none of the verified properties depend on rounding). -/
inductive JNum : Type where
  | nan : JNum
  | posInf : JNum
  | negInf : JNum
  | val (q : ℚ) : JNum
deriving DecidableEq

/-- JavaScript whitespace (the subset of `\\s` the embedding models). -/
def isJsSpace (c : Char) : Bool :=
  c = ' ' || c = '\t' || c = '\n' || c = '\r'

/-- Model of `String.prototype.trim`: strip leading and trailing whitespace. -/
def jsTrim (s : String) : String :=
  String.mk (((s.toList.dropWhile isJsSpace).reverse.dropWhile isJsSpace).reverse)

/-- Model of `Math.max` on two (non-`NaN`) numbers. -/
def mathMax (a b : ℚ) : ℚ := if a ≤ b then b else a

/-- Model of `Math.min` on two (non-`NaN`) numbers. -/
def mathMin (a b : ℚ) : ℚ := if a ≤ b then a else b

/-- Decimal value of a digit list (most significant first). -/
def digitsVal (l : List Char) : ℕ :=
  l.foldl (fun n c => 10 * n + (c.toNat - 48)) 0

/-- Modelled from the spec: the unsigned-decimal fragment of JavaScript
string-to-number coercion — `"12"`, `"12."`, `"12.5"`, `".5"`.  (Hexadecimal
and exponent forms are not modelled; no verified property depends on which
finite number a particular string denotes.) -/
def parseUnsignedDec (l : List Char) : Option ℚ :=
  let intPart := l.takeWhile Char.isDigit
  let rest := l.dropWhile Char.isDigit
  match rest with
  | [] => if intPart.isEmpty then none else some ((digitsVal intPart : ℕ) : ℚ)
  | c :: frac =>
    if c = '.' then
      if frac.all Char.isDigit then
        if intPart.isEmpty && frac.isEmpty then none
        else some (((digitsVal intPart : ℕ) : ℚ) +
          ((digitsVal frac : ℕ) : ℚ) / (10 : ℚ) ^ frac.length)
      else none
    else none

/-- Modelled from the spec: JavaScript `Number(string)` — whitespace is
trimmed, the empty string coerces to `0`, `±Infinity` is recognised, and a
signed decimal literal is parsed; anything else is `NaN`. -/
def strToNumber (s : String) : JNum :=
  let t := jsTrim s
  if t = "" then JNum.val 0
  else if t = "Infinity" then JNum.posInf
  else if t = "+Infinity" then JNum.posInf
  else if t = "-Infinity" then JNum.negInf
  else
    match t.toList with
    | '+' :: rest =>
      match parseUnsignedDec rest with
      | some q => JNum.val q
      | none => JNum.nan
    | '-' :: rest =>
      match parseUnsignedDec rest with
      | some q => JNum.val (-q)
      | none => JNum.nan
    | l =>
      match parseUnsignedDec l with
      | some q => JNum.val q
      | none => JNum.nan

/-- Modelled from the spec: JavaScript `Number(·)` on a possibly-`undefined`
JSON value (`none` is `undefined`, i.e. an absent field).  `undefined → NaN`,
`null → 0`, booleans to `0/1`, numbers unchanged, strings via `strToNumber`.
Arrays and objects coerce through their string form; we model the common
cases (`[] → 0`, other arrays and all objects `→ NaN`; a one-element array
of a number would in fact coerce to that number, a case no verified property
exercises). -/
def jsToNumber : Option JVal → JNum
  | none => JNum.nan
  | some JVal.null => JNum.val 0
  | some (JVal.bool b) => JNum.val (if b then 1 else 0)
  | some (JVal.num q) => JNum.val q
  | some (JVal.str s) => strToNumber s
  | some (JVal.arr []) => JNum.val 0
  | some (JVal.arr (_ :: _)) => JNum.nan
  | some (JVal.obj _) => JNum.nan

/-! ## Project settings (`src/lib/types.ts`, `src/lib/server-utils.ts`) -/

/-- The `ProjectSettings` interface from `src/lib/types.ts`. -/
structure ProjectSettings : Type where
  projectTag : String
  confidence : ℚ
  geminiWeight : ℚ
  geminiPrompt : String
  grokWeight : ℚ
  grokPrompt : String
  maxFileSize : ℚ
  maxWidth : ℚ
  maxHeight : ℚ
  outputFormat : String
deriving DecidableEq

/-- The `DEFAULT_API_SETTINGS` constant from `src/app/api/detect/route.tsx`. -/
def DEFAULT_API_SETTINGS : ProjectSettings where
  projectTag := "API"
  confidence := 0.8
  geminiWeight := 1
  geminiPrompt := "default"
  grokWeight := 0
  grokPrompt := "default"
  maxFileSize := 5000
  maxWidth := 1920
  maxHeight := 1080
  outputFormat := "pdf"

/-- The character class `[a-zA-Z0-9_\-\s]` kept by `sanitizeString`
(JavaScript `\s` also matches form feed, vertical tab and some Unicode
spaces, which the embedding does not model). -/
def isTagChar (c : Char) : Bool :=
  c.isAlphanum || c = '_' || c = '-' || c = ' ' || c = '\t' || c = '\n' || c = '\r'

/-- Embedding of `sanitizeString` from `src/lib/server-utils.ts`: non-strings fall back to
the default; strings are filtered to the allow-listed character class and
trimmed, an empty result (falsy) falling back to the default.  The argument
is the raw (possibly-absent) property value, matching the `as string` casts
at the call sites. -/
def sanitizeString (value : Option JVal) (defaultValue : String) : String :=
  match value with
  | some (JVal.str s) =>
    let sanitized := String.mk (s.toList.filter isTagChar)
    if jsTrim sanitized = "" then defaultValue else jsTrim sanitized
  | _ => defaultValue

/-- Embedding of `clampNumber` from `src/lib/server-utils.ts`: coerce with `Number(·)`;
`NaN` falls back to the default, anything else is clamped as
`Math.min(Math.max(num, min), max)` (so `±Infinity` clamps to the bounds).
The argument is the raw (possibly-absent) property value, matching the
`as number` casts at the call sites. -/
def clampNumber (value : Option JVal) (lo hi defaultValue : ℚ) : ℚ :=
  match jsToNumber value with
  | JNum.nan => defaultValue
  | JNum.posInf => hi
  | JNum.negInf => lo
  | JNum.val q => mathMin (mathMax q lo) hi

/-- A value stored in multipart form data: a binary `File` or a string.
`FileV` stands in for the opaque `File` object. -/
structure FileV : Type where
  fid : ℕ
deriving DecidableEq

inductive FormEntry : Type where
  | file (f : FileV) : FormEntry
  | str (s : String) : FormEntry
deriving DecidableEq

/-- JavaScript property read `o.k` on a parsed JSON object (first binding;
the source never relies on duplicate keys). -/
def lookupField (o : List (String × JVal)) (k : String) : Option JVal :=
  (o.find? (fun p => p.1 == k)).map Prod.snd

/-- The parse stage of `sanitizeSettings` (`src/lib/server-utils.ts`,
lines 81–92): read the `settings` form field; unless it is a non-empty
string whose `JSON.parse` succeeds, `settings` stays `{}` (the `catch`
swallows parse errors).  `parsed` is the outcome of the platform
`JSON.parse` on that string (`none` = it threw).  A successful parse to a
non-object leaves every property read `undefined` (modelled as `[]`), except
`null`, on which the later property reads throw a `TypeError` — modelled as
`none`. -/
def settingsObjOf (settingsField : Option FormEntry) (parsed : Option JVal) :
    Option (List (String × JVal)) :=
  match settingsField with
  | some (FormEntry.str s) =>
    if s = "" then some []
    else
      match parsed with
      | none => some []
      | some JVal.null => none
      | some (JVal.obj o) => some o
      | some _ => some []
  | _ => some []

/-- The field-by-field stage of `sanitizeSettings` (`src/lib/server-utils.ts`,
lines 95–148), applied to the parsed settings object. -/
def sanitizeFields (o : List (String × JVal)) (defaultSettings : ProjectSettings) :
    ProjectSettings where
  projectTag := sanitizeString (lookupField o "projectTag") defaultSettings.projectTag
  confidence := clampNumber (lookupField o "confidence") 0.5 1 defaultSettings.confidence
  geminiWeight := clampNumber (lookupField o "geminiWeight") 0 1 defaultSettings.geminiWeight
  geminiPrompt := sanitizeString (lookupField o "geminiPrompt") defaultSettings.geminiPrompt
  grokWeight := clampNumber (lookupField o "grokWeight") 0 1 defaultSettings.grokWeight
  grokPrompt := sanitizeString (lookupField o "grokPrompt") defaultSettings.grokPrompt
  maxFileSize := clampNumber (lookupField o "maxFileSize") 50 15000 defaultSettings.maxFileSize
  maxWidth := clampNumber (lookupField o "maxWidth") 300 15000 defaultSettings.maxWidth
  maxHeight := clampNumber (lookupField o "maxHeight") 200 15000 defaultSettings.maxHeight
  outputFormat := sanitizeString (lookupField o "outputFormat") defaultSettings.outputFormat

/-- Embedding of `sanitizeSettings` from `src/lib/server-utils.ts`.  `settingsField` is
`formData.get("settings")` (`none` = absent), `parsed` the `JSON.parse`
outcome on its string value.  The function is total except when the payload
is the JSON literal `null`, where the source's property reads throw
(`Except.error`). -/
def sanitizeSettings (settingsField : Option FormEntry) (parsed : Option JVal)
    (defaultSettings : ProjectSettings) : Except String ProjectSettings :=
  match settingsObjOf settingsField parsed with
  | none => Except.error "TypeError: cannot read properties of null"
  | some o => Except.ok (sanitizeFields o defaultSettings)

/-- The six numeric fields of `ProjectSettings`, as sanitized by
`clampNumber` in `sanitizeSettings`. -/
inductive NumField : Type where
  | confidence | geminiWeight | grokWeight | maxFileSize | maxWidth | maxHeight
deriving DecidableEq

/-- The JSON key of each numeric field. -/
def fieldKey : NumField → String
  | NumField.confidence => "confidence"
  | NumField.geminiWeight => "geminiWeight"
  | NumField.grokWeight => "grokWeight"
  | NumField.maxFileSize => "maxFileSize"
  | NumField.maxWidth => "maxWidth"
  | NumField.maxHeight => "maxHeight"

/-- The lower bound passed to `clampNumber` for each numeric field. -/
def fieldMin : NumField → ℚ
  | NumField.confidence => 0.5
  | NumField.geminiWeight => 0
  | NumField.grokWeight => 0
  | NumField.maxFileSize => 50
  | NumField.maxWidth => 300
  | NumField.maxHeight => 200

/-- The upper bound passed to `clampNumber` for each numeric field. -/
def fieldMax : NumField → ℚ
  | NumField.confidence => 1
  | NumField.geminiWeight => 1
  | NumField.grokWeight => 1
  | NumField.maxFileSize => 15000
  | NumField.maxWidth => 15000
  | NumField.maxHeight => 15000

/-- Projection of a numeric field out of a `ProjectSettings`. -/
def getNumField (s : ProjectSettings) : NumField → ℚ
  | NumField.confidence => s.confidence
  | NumField.geminiWeight => s.geminiWeight
  | NumField.grokWeight => s.grokWeight
  | NumField.maxFileSize => s.maxFileSize
  | NumField.maxWidth => s.maxWidth
  | NumField.maxHeight => s.maxHeight

/-- Embedding of `sanitizeOptionalDate` from `src/lib/server-utils.ts`: falsy input
(absent or empty string) gives `null`; otherwise `Number(·)` coercion, with
`NaN` and negative values giving `null`.  (`Infinity` passes the
`isNaN`/negative checks and is returned as-is, hence the `JNum` codomain.) -/
def sanitizeOptionalDate (value : Option String) : Option JNum :=
  match value with
  | none => none
  | some v =>
    if v = "" then none
    else
      match strToNumber v with
      | JNum.nan => none
      | JNum.negInf => none
      | JNum.posInf => some JNum.posInf
      | JNum.val q => if q < 0 then none else some (JNum.val q)

/-- The character class `[a-zA-Z0-9_\-\s,./]` kept by
`sanitizeOptionalLocation`. -/
def isLocationChar (c : Char) : Bool :=
  isTagChar c || c = ',' || c = '.' || c = '/'

/-- Embedding of `sanitizeOptionalLocation` from `src/lib/server-utils.ts`. -/
def sanitizeOptionalLocation (value : Option String) : Option String :=
  match value with
  | none => none
  | some v =>
    if v = "" then none
    else
      let sanitized := String.mk (v.toList.filter isLocationChar)
      if jsTrim sanitized = "" then none else some (jsTrim sanitized)

end Helmet

namespace Helmet

/-! ## Image extraction (`extractImagesFromFormData`, `route.tsx` 139–178) -/

/-- The multipart field-name convention consumed by the route: `settings`,
`image_N`, `thumb_N`, `initialImageDate_N`, `initialImageLocation_N`
(`N` a decimal index, as produced by JavaScript template literals on a
number).  `other` covers names the route never queries. -/
inductive FormKey : Type where
  | settings : FormKey
  | image (i : ℕ) : FormKey
  | thumb (i : ℕ) : FormKey
  | date (i : ℕ) : FormKey
  | location (i : ℕ) : FormKey
  | other (s : String) : FormKey
deriving DecidableEq

/-- A multipart form: an ordered list of (name, value) entries. -/
def FormData : Type := List (FormKey × FormEntry)

/-- Model of `formData.get(k)`: the first entry named `k`, or `null`. -/
def formGet (fd : FormData) (k : FormKey) : Option FormEntry :=
  (fd.find? (fun p => p.1 == k)).map Prod.snd

/-- Model of `formData.has(k)`. -/
def formHas (fd : FormData) (k : FormKey) : Bool :=
  (formGet fd k).isSome

/-- The per-index record assembled by `extractImagesFromFormData`. -/
structure ImageRecord : Type where
  initialImageDate : Option JNum
  initialImageLocation : Option String
  image : FileV
  thumb : FileV
deriving DecidableEq

/-- The cast `typeof v === "string" ? v : null` (absent values included). -/
def entryString : Option FormEntry → Option String
  | some (FormEntry.str s) => some s
  | _ => none

/-- The body of one iteration of the extraction loop (`route.tsx` 155–172):
the record pushed for `index`, or `none` when `image_index` / `thumb_index`
is not a `File` (the `instanceof` guard). -/
def extractIndex (fd : FormData) (index : ℕ) : Option ImageRecord :=
  match formGet fd (FormKey.image index), formGet fd (FormKey.thumb index) with
  | some (FormEntry.file img), some (FormEntry.file th) =>
    some
      { image := img
        thumb := th
        initialImageDate :=
          sanitizeOptionalDate (entryString (formGet fd (FormKey.date index)))
        initialImageLocation :=
          sanitizeOptionalLocation (entryString (formGet fd (FormKey.location index))) }
  | _, _ => none

/-- The `while (formData.has(`image_${index}`))` loop of
`extractImagesFromFormData`.  The loop always terminates because the form is
finite (see `extract_terminates_within_fuel`); the embedding makes this
explicit with a fuel argument, instantiated below so that the fuel never
runs out. -/
def extractImagesAux (fd : FormData) : ℕ → ℕ → List ImageRecord
  | 0, _ => []
  | fuel + 1, index =>
    if formHas fd (FormKey.image index) then
      match extractIndex fd index with
      | some r => r :: extractImagesAux fd fuel (index + 1)
      | none => extractImagesAux fd fuel (index + 1)
    else []

/-- Embedding of `extractImagesFromFormData` from `route.tsx`. -/
def extractImagesFromFormData (fd : FormData) : List ImageRecord :=
  extractImagesAux fd (fd.length + 1) 0

/-! ## Detection client (`requestGem`, `detectHelmetInImage`,
`route.tsx` 30–131 and 190–260) -/

/-- A person entry of the parsed model response (`GeminiPerson`,
`src/lib/types.ts`). -/
structure GeminiPerson : Type where
  person_id : ℚ
  personConfidence : ℚ
  helmetConfidence : ℚ
  hasHelmet : Bool
  personBox : List ℚ
  helmetBox : Option (List ℚ)
deriving DecidableEq

/-- A detection returned by `detectHelmetInImage` (`route.tsx` 197–204). -/
structure DetectedPerson : Type where
  personID : ℚ
  personConfidence : ℚ
  helmetConfidence : ℚ
  hasHelmet : Bool
  personBox : List ℚ
  helmetBox : Option (List ℚ)
deriving DecidableEq

/-- JavaScript `Array.prototype.map` with the element index as second
callback argument, starting from `start`. -/
def mapWithIndex (f : ℕ → α → β) : ℕ → List α → List β
  | _, [] => []
  | start, a :: l => f start a :: mapWithIndex f (start + 1) l

/-- The outcome of the effectful prefix of `requestGem` (network call, text
extraction, JSON recovery): either some step threw — network error, empty
response text, or no parsable JSON (`route.tsx` 94–111) — or a parsed
response was obtained, whose `persons` field is an array of person entries
(`some`) or missing / not an array (`none`). -/
inductive ModelOutcome : Type where
  | fail : ModelOutcome
  | ok (persons : Option (List GeminiPerson)) : ModelOutcome

/-- The response-shaping tail of `requestGem` (`route.tsx` 113–126): when
`parsed.persons` is an array, each entry's `person_id` is overwritten with
its array index; errors are re-thrown unchanged (`route.tsx` 127–130). -/
def requestGem : ModelOutcome → ModelOutcome
  | ModelOutcome.fail => ModelOutcome.fail
  | ModelOutcome.ok none => ModelOutcome.ok none
  | ModelOutcome.ok (some persons) =>
    ModelOutcome.ok
      (some (mapWithIndex (fun index person => { person with person_id := (index : ℚ) }) 0 persons))

/-- The per-person post-processing of `detectHelmetInImage`
(`route.tsx` 223–252): rescale confidences from 0–100 to 0–1, apply the
caller's threshold after the model's boolean verdict, and discard the helmet
box when the final verdict is negative. -/
def processPerson (confidenceThreshold : ℚ) (person : GeminiPerson) : DetectedPerson :=
  let helmetConfidence := person.helmetConfidence / 100
  let wasHelmetDetected := person.hasHelmet
  let hasHelmet := wasHelmetDetected && decide (confidenceThreshold ≤ helmetConfidence)
  let helmetBox := if hasHelmet then person.helmetBox else none
  { personID := person.person_id
    personConfidence := person.personConfidence / 100
    helmetConfidence := helmetConfidence
    hasHelmet := hasHelmet
    personBox := person.personBox
    helmetBox := helmetBox }

/-- Embedding of `detectHelmetInImage` from `route.tsx` 190–260.  `outcome` is the
outcome of the effectful steps (`image.arrayBuffer()` and the model call
inside `requestGem`); any throw (`ModelOutcome.fail`) is caught and turned
into an empty detection list (`route.tsx` 255–259), and a response without a
`persons` array yields `[]` (`route.tsx` 219–221). -/
def detectHelmetInImage (outcome : ModelOutcome) (confidenceThreshold : ℚ) :
    List DetectedPerson :=
  match requestGem outcome with
  | ModelOutcome.fail => []
  | ModelOutcome.ok none => []
  | ModelOutcome.ok (some persons) => persons.map (processPerson confidenceThreshold)

end Helmet

namespace Helmet

/-! ## Orchestrator (`POST`, `route.tsx` 269–444)

The per-image pipeline touches three effectful collaborators —
`saveImageToFileSystem`, `createImage` and `createPerson` — each of which
signals failure with a sentinel instead of throwing.  Their outcomes are
collected in an `ImageEnv` oracle per image; everything downstream of those
outcomes is the source's own (pure) control flow. -/

/-- The `Image` row returned by `createImage` (fields the orchestrator
reads: `id`, `fileName`, `thumbFileName`). -/
structure ImageRow : Type where
  id : ℕ
  fileName : String
  thumbFileName : String
deriving DecidableEq

/-- The `Person` row returned by `createPerson`. -/
structure PersonRow : Type where
  id : ℕ
  imageID : ℕ
  personID : ℚ
  personConfidence : ℚ
  helmetConfidence : ℚ
  hasHelmet : Bool
  personBox : List ℚ
  helmetBox : Option (List ℚ)
deriving DecidableEq

/-- The argument tuple of one `createPerson` invocation
(`route.tsx` 371–379). -/
structure PersonCall : Type where
  imageId : ℕ
  personID : ℚ
  personConfidence : ℚ
  helmetConfidence : ℚ
  hasHelmet : Bool
  personBox : List ℚ
  helmetBox : Option (List ℚ)
deriving DecidableEq

/-- Oracle for the effectful steps of one image's pipeline:
`fsResult` is the outcome of `saveImageToFileSystem` (`some (fileName,
thumbFileName)` on success), `imageRowId` the row id assigned by
`createImage` when it is invoked (`none` = the null sentinel), `detection`
the list returned by `detectHelmetInImage` (a total function: every throw
inside it is caught), and `personRowId i` the id
assigned by the `i`-th `createPerson` call for this image (`none` = the
null sentinel). -/
structure ImageEnv : Type where
  fsResult : Option (String × String)
  imageRowId : Option ℕ
  detection : List DetectedPerson
  personRowId : ℕ → Option ℕ

/-- Thread 1 of the per-image pipeline (`route.tsx` 317–348): write image
and thumbnail to the filesystem, then insert the `Image` row; either failure
yields the `null` sentinel. -/
def savePath (env : ImageEnv) : Option ImageRow :=
  match env.fsResult with
  | none => none
  | some fs =>
    match env.imageRowId with
    | none => none
    | some imgId => some { id := imgId, fileName := fs.1, thumbFileName := fs.2 }

/-- The per-image result object (`route.tsx` 362–366 and 391–399): `failure`
carries `success: false` plus an error string, `success` carries the image
id, file names, `peopleDetected` count and the saved people. -/
inductive ImageResult : Type where
  | failure (index : ℕ) (error : String) : ImageResult
  | success (index : ℕ) (imageId : ℕ) (fileName thumbFileName : String)
      (peopleDetected : ℕ) (people : List PersonRow) : ImageResult
deriving DecidableEq

/-- The `success` flag of a per-image result. -/
def ImageResult.isSuccess : ImageResult → Bool
  | ImageResult.failure _ _ => false
  | ImageResult.success _ _ _ _ _ _ => true

/-- The read `r.peopleDetected ?? 0`. -/
def ImageResult.peopleCount : ImageResult → ℕ
  | ImageResult.failure _ _ => 0
  | ImageResult.success _ _ _ _ k _ => k

/-- One image's pipeline (`route.tsx` 310–408) given its oracle: join the
save path and the detection result; on save failure report a failed result
without touching `createPerson`; otherwise insert each detected person,
dropping the ones whose insert returned the sentinel.  Returns the per-image
result together with the list of `createPerson` invocations made. -/
def processImage (env : ImageEnv) (index : ℕ) : ImageResult × List PersonCall :=
  let saveResult := savePath env
  let detectionResult := env.detection
  match saveResult with
  | none => (ImageResult.failure index "Failed to save image", [])
  | some row =>
    let calls := detectionResult.map (fun person =>
      { imageId := row.id
        personID := person.personID
        personConfidence := person.personConfidence
        helmetConfidence := person.helmetConfidence
        hasHelmet := person.hasHelmet
        personBox := person.personBox
        helmetBox := person.helmetBox : PersonCall })
    let personResults : List (Option PersonRow) :=
      mapWithIndex (fun i person =>
        match env.personRowId i with
        | none => none
        | some pid =>
          some
            { id := pid
              imageID := row.id
              personID := person.personID
              personConfidence := person.personConfidence
              helmetConfidence := person.helmetConfidence
              hasHelmet := person.hasHelmet
              personBox := person.personBox
              helmetBox := person.helmetBox }) 0 detectionResult
    (ImageResult.success index row.id row.fileName row.thumbFileName
      (personResults.filterMap id).length (personResults.filterMap id), calls)

/-- The parallel fan-out `await Promise.all(images.map(...))`
(`route.tsx` 309–409): one result per image, in input order; image `j`'s
result is a function of image `j`'s oracle alone. -/
def runImages (envs : ℕ → ImageEnv) (n : ℕ) : List (ImageResult × List PersonCall) :=
  (List.range n).map (fun index => processImage (envs index) index)

/-- The `summary` object of the JSON response (`route.tsx` 413–434). -/
structure Summary : Type where
  totalImages : ℕ
  successfulImages : ℕ
  failedImages : ℕ
  totalPeopleDetected : ℕ
deriving DecidableEq

/-- The aggregation step of `POST` (`route.tsx` 413–434) over the extracted
image list and the per-image oracles. -/
def postSummary (images : List ImageRecord) (envs : ℕ → ImageEnv) : Summary :=
  let imageResults := (runImages envs images.length).map Prod.fst
  let successfulImages := (imageResults.filter ImageResult.isSuccess).length
  let totalPeopleDetected :=
    imageResults.foldl
      (fun sum r => sum + (if r.isSuccess then r.peopleCount else 0)) 0
  { totalImages := images.length
    successfulImages := successfulImages
    failedImages := images.length - successfulImages
    totalPeopleDetected := totalPeopleDetected }

end Helmet

namespace Helmet

/-! ## Helper lemmas -/

/-- Sanitizing the empty settings object returns the defaults unchanged. -/
theorem sanitizeFields_nil (d : ProjectSettings) : sanitizeFields [] d = d := rfl

theorem settingsObjOf_str_unparsed (s : String) :
    settingsObjOf (some (FormEntry.str s)) none = some [] := by
  by_cases hs : s = "" <;> simp [settingsObjOf, hs]

theorem settingsObjOf_str_obj (s : String) (o : List (String × JVal)) (hs : s ≠ "") :
    settingsObjOf (some (FormEntry.str s)) (some (JVal.obj o)) = some o := by
  simp [settingsObjOf, hs]

/-- Each numeric field of the sanitized record is `clampNumber` of the raw
property against that field's bounds. -/
theorem getNumField_sanitizeFields (o : List (String × JVal)) (d : ProjectSettings)
    (f : NumField) :
    getNumField (sanitizeFields o d) f
      = clampNumber (lookupField o (fieldKey f)) (fieldMin f) (fieldMax f) (getNumField d f) := by
  cases f <;> rfl

theorem fieldMin_le_fieldMax (f : NumField) : fieldMin f ≤ fieldMax f := by
  cases f <;> norm_num [fieldMin, fieldMax]

theorem mathMax_le_iff (a b c : ℚ) : mathMax a b ≤ c ↔ a ≤ c ∧ b ≤ c := by
  unfold mathMax; split_ifs with h <;> constructor <;> intro hh
  · exact ⟨le_trans h hh, hh⟩
  · exact hh.2
  · exact ⟨hh, le_trans (le_of_not_le h) hh⟩
  · exact hh.1

theorem le_mathMax_right (a b : ℚ) : b ≤ mathMax a b := by
  unfold mathMax; split_ifs with h
  · exact le_refl b
  · exact le_of_not_le h

theorem le_mathMin_iff (a b c : ℚ) : c ≤ mathMin a b ↔ c ≤ a ∧ c ≤ b := by
  unfold mathMin; split_ifs with h <;> constructor <;> intro hh
  · exact ⟨hh, le_trans hh h⟩
  · exact hh.1
  · exact ⟨le_trans hh (le_of_not_le h), hh⟩
  · exact hh.2

theorem mathMin_le_right (a b : ℚ) : mathMin a b ≤ b := by
  unfold mathMin; split_ifs with h
  · exact h
  · exact le_refl b

/-- The result of `clampNumber` stays within `[lo, hi]` whenever the default does. -/
theorem clampNumber_bounds (v : Option JVal) (lo hi dflt : ℚ)
    (hlohi : lo ≤ hi) (hlo : lo ≤ dflt) (hhi : dflt ≤ hi) :
    lo ≤ clampNumber v lo hi dflt ∧ clampNumber v lo hi dflt ≤ hi := by
  unfold clampNumber
  cases jsToNumber v with
  | nan => exact ⟨hlo, hhi⟩
  | posInf => exact ⟨hlohi, le_refl hi⟩
  | negInf => exact ⟨le_refl lo, hlohi⟩
  | val q =>
    constructor
    · exact (le_mathMin_iff _ _ _).mpr ⟨le_mathMax_right q lo, hlohi⟩
    · exact mathMin_le_right _ _

/-! ## C5 -/

/-- C5: for every input image, whenever the external model call, the
response parsing, or the post-processing inside `detectHelmetInImage`
throws (outcome `ModelOutcome.fail`, covering network, parse and model
errors), `detectHelmetInImage` returns the empty detection list; being a
total function into `List DetectedPerson`, it propagates no exception to
its caller. -/
theorem detectHelmetInImage_failure_returns_empty (confidenceThreshold : ℚ) :
    detectHelmetInImage ModelOutcome.fail confidenceThreshold = [] := rfl

/-! ## C9 -/

/-- C9: when the `settings` form field is absent, is not a string (a binary
`File`), or is a string on which `JSON.parse` throws, `sanitizeSettings`
does not throw and returns the full default settings object. -/
theorem sanitizeSettings_malformed_returns_defaults
    (settingsField : Option FormEntry) (parsed : Option JVal)
    (defaultSettings : ProjectSettings)
    (h : settingsField = none
      ∨ (∃ f : FileV, settingsField = some (FormEntry.file f))
      ∨ (∃ s : String, settingsField = some (FormEntry.str s) ∧ parsed = none)) :
    sanitizeSettings settingsField parsed defaultSettings
      = Except.ok defaultSettings := by
  rcases h with h | ⟨f, h⟩ | ⟨s, h, hp⟩
  · subst h; rfl
  · subst h; rfl
  · subst h; subst hp
    unfold sanitizeSettings
    rw [settingsObjOf_str_unparsed]
    exact congrArg Except.ok (sanitizeFields_nil defaultSettings)

/-- Witness for C9 at the concrete input "field absent". -/
theorem sanitizeSettings_malformed_returns_defaults_witness :
    sanitizeSettings none none DEFAULT_API_SETTINGS
      = Except.ok DEFAULT_API_SETTINGS :=
  sanitizeSettings_malformed_returns_defaults none none DEFAULT_API_SETTINGS
    (Or.inl rfl)

/-! ## C1 -/

/-- C1 counterexample: the settings payload `{"confidence": 2}` has the
known numeric field `confidence` present and above its fixed maximum `1`,
yet `sanitizeSettings` returns the clamped extreme `1`, not the default
`0.8` — refuting "substitute the default's value for that field, never a
clamp of the supplied value to the nearest bound". -/
theorem sanitizeSettings_out_of_range_is_clamped_not_default :
    sanitizeSettings (some (FormEntry.str "\x7b\"confidence\": 2\x7d"))
        (some (JVal.obj [("confidence", JVal.num 2)])) DEFAULT_API_SETTINGS
      = Except.ok { DEFAULT_API_SETTINGS with confidence := 1 }
    ∧ (1 : ℚ) ≠ DEFAULT_API_SETTINGS.confidence :=
  ⟨rfl, by decide⟩

/-- C1 (amended): for every settings payload in which a known numeric field
is present with a numeric value out of that field's fixed `[min, max]`
range, `sanitizeSettings` substitutes the nearest bound (a clamp of the
supplied value); the default's value is substituted only when the field is
missing or does not coerce to a number. -/
theorem sanitizeSettings_clamps_out_of_range (o : List (String × JVal))
    (s : String) (d : ProjectSettings) (f : NumField) (q : ℚ)
    (hs : s ≠ "") (hq : lookupField o (fieldKey f) = some (JVal.num q))
    (hout : q < fieldMin f ∨ fieldMax f < q) :
    (sanitizeSettings (some (FormEntry.str s)) (some (JVal.obj o)) d).map
        (fun r => getNumField r f)
      = Except.ok (if q < fieldMin f then fieldMin f else fieldMax f) := by
  unfold sanitizeSettings
  rw [settingsObjOf_str_obj s o hs]
  have hcl : getNumField (sanitizeFields o d) f
      = mathMin (mathMax q (fieldMin f)) (fieldMax f) := by
    rw [getNumField_sanitizeFields, hq]
    rfl
  show Except.ok (getNumField (sanitizeFields o d) f) = _
  rw [hcl]
  rcases hout with hlt | hgt
  · rw [if_pos hlt]
    unfold mathMax
    rw [if_pos (le_of_lt hlt)]
    unfold mathMin
    rw [if_pos (fieldMin_le_fieldMax f)]
  · rw [if_neg (not_lt.mpr (le_trans (fieldMin_le_fieldMax f) (le_of_lt hgt)))]
    unfold mathMax
    rw [if_neg (not_le.mpr (lt_of_le_of_lt (fieldMin_le_fieldMax f) hgt))]
    unfold mathMin
    rw [if_neg (not_le.mpr hgt)]

/-- Witness for the amended C1 at the concrete payload
`{"confidence": 2}`. -/
theorem sanitizeSettings_clamps_out_of_range_witness :
    (sanitizeSettings (some (FormEntry.str "\x7b\"confidence\": 2\x7d"))
        (some (JVal.obj [("confidence", JVal.num 2)])) DEFAULT_API_SETTINGS).map
        (fun r => getNumField r NumField.confidence)
      = Except.ok (if (2 : ℚ) < fieldMin NumField.confidence
          then fieldMin NumField.confidence else fieldMax NumField.confidence) :=
  sanitizeSettings_clamps_out_of_range [("confidence", JVal.num 2)]
    "\x7b\"confidence\": 2\x7d" DEFAULT_API_SETTINGS NumField.confidence 2
    (by decide) rfl (Or.inr (by decide))

/-! ## C2 -/

/-- C2 (code bug): the repository documents the confidence setting as
ranging over 0.05–1.0 (README, the client-side zod schema and the UI
slider), but `sanitizeSettings` clamps `confidence` with lower bound `0.5`:
on the payload `{"confidence": 0.1}` — inside the documented range — the
returned confidence is `0.5`, not the supplied `0.1`. -/
theorem sanitizeSettings_confidence_lower_bound_is_half :
    sanitizeSettings (some (FormEntry.str "\x7b\"confidence\": 0.1\x7d"))
        (some (JVal.obj [("confidence", JVal.num 0.1)])) DEFAULT_API_SETTINGS
      = Except.ok { DEFAULT_API_SETTINGS with confidence := 0.5 }
    ∧ (0.05 : ℚ) ≤ 0.1 ∧ (0.1 : ℚ) ≤ 1 ∧ (0.5 : ℚ) ≠ 0.1 :=
  ⟨rfl, by decide, by decide, by decide⟩

/-! ## C8 -/

/-- C8: for every input payload on which `sanitizeSettings` returns a
settings object, every numeric field of that object lies within the field's
fixed `[min, max]` bounds, provided the supplied default settings are
themselves in range.  (`NaN` is unrepresentable in the output: every branch
of `clampNumber` returns the default or a value between the bounds.) -/
theorem sanitizeSettings_numeric_fields_in_range
    (settingsField : Option FormEntry) (parsed : Option JVal)
    (d : ProjectSettings)
    (hd : ∀ g : NumField, fieldMin g ≤ getNumField d g ∧ getNumField d g ≤ fieldMax g)
    (r : ProjectSettings)
    (hr : sanitizeSettings settingsField parsed d = Except.ok r)
    (f : NumField) :
    fieldMin f ≤ getNumField r f ∧ getNumField r f ≤ fieldMax f := by
  unfold sanitizeSettings at hr
  rcases hobj : settingsObjOf settingsField parsed with _ | o <;> rw [hobj] at hr
  · cases hr
  · injection hr with hr
    subst hr
    rw [getNumField_sanitizeFields]
    exact clampNumber_bounds _ _ _ _ (fieldMin_le_fieldMax f) (hd f).1 (hd f).2

/-- Witness for C8 at the concrete input: absent settings field, the
route's own defaults, field `confidence`. -/
theorem sanitizeSettings_numeric_fields_in_range_witness :
    fieldMin NumField.confidence ≤ getNumField DEFAULT_API_SETTINGS NumField.confidence
    ∧ getNumField DEFAULT_API_SETTINGS NumField.confidence ≤ fieldMax NumField.confidence :=
  sanitizeSettings_numeric_fields_in_range none none DEFAULT_API_SETTINGS
    (by intro g; cases g <;> exact ⟨by decide, by decide⟩)
    DEFAULT_API_SETTINGS rfl NumField.confidence

/-! ## C3 and C10: detection post-processing -/

/-- Indexing lemma for `mapWithIndex`. -/
theorem mapWithIndex_getElem? (f : ℕ → α → β) :
    ∀ (l : List α) (start i : ℕ),
      (mapWithIndex f start l)[i]? = l[i]?.map (f (start + i)) := by
  intro l
  induction l with
  | nil => intro start i; simp [mapWithIndex]
  | cons a l ih =>
    intro start i
    cases i with
    | zero => simp [mapWithIndex]
    | succ i =>
      simp only [mapWithIndex, List.getElem?_cons_succ, ih (start + 1) i]
      rw [Nat.add_right_comm start 1 i, Nat.add_assoc]

/-- Elementwise description of `detectHelmetInImage` on a parsed `persons`
array. -/
theorem detectHelmetInImage_getElem? (l : List GeminiPerson) (t : ℚ) (i : ℕ) :
    (detectHelmetInImage (ModelOutcome.ok (some l)) t)[i]?
      = l[i]?.map (fun p => processPerson t { p with person_id := (i : ℚ) }) := by
  show ((mapWithIndex (fun index person => { person with person_id := (index : ℚ) }) 0 l).map
      (processPerson t))[i]? = _
  rw [List.getElem?_map, mapWithIndex_getElem?, Option.map_map]
  cases l[i]? <;> simp

/-- A processed person whose final verdict is negative carries no helmet
box. -/
theorem processPerson_no_helmet_no_box (t : ℚ) (p : GeminiPerson)
    (h : (processPerson t p).hasHelmet = false) :
    (processPerson t p).helmetBox = none := by
  have hb : (processPerson t p).helmetBox
      = if (processPerson t p).hasHelmet then p.helmetBox else none := rfl
  rw [hb, h]
  rfl

/-- C3: for every person entry of a parsed model response,
`detectHelmetInImage` rescales both confidences from 0–100 to 0–1, outputs
`hasHelmet = true` exactly when the model's boolean verdict was true and
the rescaled helmet confidence reaches the caller's threshold, never raises
a negative model verdict, nulls the helmet box on a downgraded verdict, and
every output person with `hasHelmet = false` has `helmetBox = none`. -/
theorem detectHelmetInImage_threshold_semantics
    (l : List GeminiPerson) (t : ℚ) (i : ℕ) (p : GeminiPerson)
    (hp : l[i]? = some p) :
    (∃ q : DetectedPerson,
      (detectHelmetInImage (ModelOutcome.ok (some l)) t)[i]? = some q
      ∧ q.personConfidence = p.personConfidence / 100
      ∧ q.helmetConfidence = p.helmetConfidence / 100
      ∧ (q.hasHelmet = true ↔ (p.hasHelmet = true ∧ t ≤ p.helmetConfidence / 100))
      ∧ (p.hasHelmet = false → q.hasHelmet = false)
      ∧ (q.hasHelmet = false → q.helmetBox = none))
    ∧ ∀ q ∈ detectHelmetInImage (ModelOutcome.ok (some l)) t,
        q.hasHelmet = false → q.helmetBox = none := by
  constructor
  · refine ⟨processPerson t { p with person_id := (i : ℚ) }, ?_, rfl, rfl, ?_, ?_, ?_⟩
    · rw [detectHelmetInImage_getElem?, hp]
      rfl
    · show (p.hasHelmet && decide (t ≤ p.helmetConfidence / 100)) = true ↔ _
      rw [Bool.and_eq_true, decide_eq_true_eq]
    · intro hfalse
      show (p.hasHelmet && decide (t ≤ p.helmetConfidence / 100)) = false
      rw [hfalse, Bool.false_and]
    · exact processPerson_no_helmet_no_box t _
  · intro q hq
    have : q ∈ (mapWithIndex (fun index person => { person with person_id := (index : ℚ) }) 0 l).map
        (processPerson t) := hq
    rcases List.mem_map.mp this with ⟨p', _, hp'⟩
    rw [← hp']
    exact processPerson_no_helmet_no_box t p'

/-- A sample parsed person entry: model verdict "has helmet" with helmet
confidence 70 (0–100 scale). -/
def samplePerson : GeminiPerson where
  person_id := 7
  personConfidence := 90
  helmetConfidence := 70
  hasHelmet := true
  personBox := [0, 0, 500, 500]
  helmetBox := some [0, 0, 100, 100]

/-- Witness for C3 at the spec's own example: `hasHelmet: true,
helmetConfidence: 70`, threshold `0.8`. -/
theorem detectHelmetInImage_threshold_semantics_witness :
    (∃ q : DetectedPerson,
      (detectHelmetInImage (ModelOutcome.ok (some [samplePerson])) 0.8)[0]? = some q
      ∧ q.personConfidence = samplePerson.personConfidence / 100
      ∧ q.helmetConfidence = samplePerson.helmetConfidence / 100
      ∧ (q.hasHelmet = true ↔ (samplePerson.hasHelmet = true
          ∧ (0.8 : ℚ) ≤ samplePerson.helmetConfidence / 100))
      ∧ (samplePerson.hasHelmet = false → q.hasHelmet = false)
      ∧ (q.hasHelmet = false → q.helmetBox = none))
    ∧ ∀ q ∈ detectHelmetInImage (ModelOutcome.ok (some [samplePerson])) 0.8,
        q.hasHelmet = false → q.helmetBox = none :=
  detectHelmetInImage_threshold_semantics [samplePerson] 0.8 0 samplePerson rfl

/-- C10: after `requestGem` overwrites each entry's `person_id` with its
array index, the detection list returned by `detectHelmetInImage` carries
`personID = i` at every position `i`, regardless of the `person_id` values
the model returned. -/
theorem detectHelmetInImage_personID_is_index
    (l : List GeminiPerson) (t : ℚ) (i : ℕ) (q : DetectedPerson)
    (hq : (detectHelmetInImage (ModelOutcome.ok (some l)) t)[i]? = some q) :
    q.personID = (i : ℚ) := by
  rw [detectHelmetInImage_getElem?] at hq
  rcases hl : l[i]? with _ | p <;> rw [hl] at hq
  · cases hq
  · injection hq with hq
    rw [← hq]
    rfl

/-- Witness for C10 at a one-element response whose model-assigned
`person_id` is 7: the output carries `personID = 0`. -/
theorem detectHelmetInImage_personID_is_index_witness :
    (processPerson 0.8 { samplePerson with person_id := (0 : ℚ) }).personID = ((0 : ℕ) : ℚ) :=
  detectHelmetInImage_personID_is_index [samplePerson] 0.8 0
    (processPerson 0.8 { samplePerson with person_id := (0 : ℚ) }) rfl

/-! ## C6: image extraction -/

/-- A present `image_k` entry contributes the key `image k` to the form's
key list. -/
theorem formHas_mem_keys (fd : FormData) (k : FormKey)
    (h : formHas fd k = true) : k ∈ fd.map Prod.fst := by
  unfold formHas formGet at h
  rcases hfind : List.find? (fun p => p.1 == k) fd with _ | p
  · rw [hfind] at h
    cases h
  · have hmem := List.mem_of_find?_eq_some hfind
    have hpk := List.find?_some hfind
    have : p.1 = k := beq_iff_eq.mp hpk
    rw [← this]
    exact List.mem_map_of_mem Prod.fst hmem

/-- Pigeonhole: if `image_0 … image_(N-1)` are all present, the form has at
least `N` entries — so the extraction loop's fuel `fd.length + 1` never
runs out before the first gap. -/
theorem extract_terminates_within_fuel (fd : FormData) (N : ℕ)
    (h : ∀ k, k < N → formHas fd (FormKey.image k) = true) : N ≤ fd.length := by
  have hinj : Set.InjOn (fun k => FormKey.image k) (Finset.range N) := by
    intro a _ b _ hab
    simpa using hab
  have hmaps : ∀ a ∈ Finset.range N, FormKey.image a ∈ (fd.map Prod.fst).toFinset := by
    intro a ha
    exact List.mem_toFinset.mpr (formHas_mem_keys fd _ (h a (Finset.mem_range.mp ha)))
  have hcard := Finset.card_le_card_of_injOn (fun k => FormKey.image k) hmaps hinj
  rw [Finset.card_range] at hcard
  calc N ≤ (fd.map Prod.fst).toFinset.card := hcard
    _ ≤ (fd.map Prod.fst).length := List.toFinset_card_le _
    _ = fd.length := List.length_map _ _

/-- The extraction loop, characterised: with all of `image_idx …
image_(idx+n-1)` present, `image_(idx+n)` absent and enough fuel, the loop
returns exactly the filtered records of indices `idx … idx+n-1`, in index
order. -/
theorem extractImagesAux_spec (fd : FormData) :
    ∀ (n fuel idx : ℕ),
      (∀ k, k < n → formHas fd (FormKey.image (idx + k)) = true) →
      formHas fd (FormKey.image (idx + n)) = false →
      n < fuel →
      extractImagesAux fd fuel idx = (List.range' idx n).filterMap (extractIndex fd) := by
  intro n
  induction n with
  | zero =>
    intro fuel idx _ habs hfuel
    rcases fuel with _ | fuel
    · cases hfuel
    · show extractImagesAux fd (fuel + 1) idx = []
      unfold extractImagesAux
      rw [Nat.add_zero] at habs
      rw [habs]
      rfl
  | succ n ih =>
    intro fuel idx hpresent habs hfuel
    rcases fuel with _ | fuel
    · cases hfuel
    · have h0 : formHas fd (FormKey.image idx) = true := by
        have := hpresent 0 (Nat.succ_pos n)
        rwa [Nat.add_zero] at this
      have htail : extractImagesAux fd fuel (idx + 1)
          = (List.range' (idx + 1) n).filterMap (extractIndex fd) := by
        apply ih fuel (idx + 1)
        · intro k hk
          have := hpresent (k + 1) (Nat.succ_lt_succ hk)
          rw [← Nat.add_assoc] at this
          rwa [Nat.add_right_comm idx k 1] at this
        · have : idx + 1 + n = idx + (n + 1) := by
            rw [Nat.add_right_comm idx 1 n, Nat.add_assoc]
          rwa [this]
        · exact Nat.lt_of_succ_lt_succ hfuel
      unfold extractImagesAux
      rw [h0]
      show (match extractIndex fd idx with
        | some r => r :: extractImagesAux fd fuel (idx + 1)
        | none => extractImagesAux fd fuel (idx + 1))
        = (List.range' idx (n + 1)).filterMap (extractIndex fd)
      rw [List.range'_succ, List.filterMap_cons]
      rcases hidx : extractIndex fd idx with _ | r
      · exact htail
      · rw [htail]

/-- C6: `extractImagesFromFormData` iterates indices `0, 1, 2, …` and stops
at the first index `N` whose `image_N` field is absent, silently truncating
later indices; among indices below `N`, exactly those whose `image_k` and
`thumb_k` are both binary `File`s contribute a record (`extractIndex`,
which is `none` — a silent skip, iteration continuing — when either is not
a `File`); the records appear in input index order. -/
theorem extractImagesFromFormData_stops_at_first_gap (fd : FormData) (N : ℕ)
    (habs : formHas fd (FormKey.image N) = false)
    (hbelow : ∀ k, k < N → formHas fd (FormKey.image k) = true) :
    extractImagesFromFormData fd = (List.range N).filterMap (extractIndex fd) := by
  unfold extractImagesFromFormData
  rw [List.range_eq_range']
  apply extractImagesAux_spec fd N (fd.length + 1) 0
  · intro k hk
    rw [Nat.zero_add]
    exact hbelow k hk
  · rwa [Nat.zero_add]
  · exact Nat.lt_succ_of_le (extract_terminates_within_fuel fd N hbelow)

/-- A form carrying complete `File` groups at indices 0, 1 and 3 — a gap at
index 2, the spec's own test vector. -/
def sampleForm : FormData :=
  [ (FormKey.image 0, FormEntry.file ⟨0⟩), (FormKey.thumb 0, FormEntry.file ⟨1⟩),
    (FormKey.image 1, FormEntry.file ⟨2⟩), (FormKey.thumb 1, FormEntry.file ⟨3⟩),
    (FormKey.image 3, FormEntry.file ⟨4⟩), (FormKey.thumb 3, FormEntry.file ⟨5⟩) ]

/-- Witness for C6: on indices {0,1,3} the extractor stops at the gap and
returns exactly the records of indices 0 and 1. -/
theorem extractImagesFromFormData_stops_at_first_gap_witness :
    extractImagesFromFormData sampleForm
      = (List.range 2).filterMap (extractIndex sampleForm) :=
  extractImagesFromFormData_stops_at_first_gap sampleForm 2 (by decide)
    (by decide)

/-! ## C4: save failure isolates the image and persists no people -/

/-- The save path yields the null sentinel when the filesystem write failed
or the `Image` insert returned null. -/
theorem savePath_none (env : ImageEnv)
    (h : env.fsResult = none ∨ env.imageRowId = none) :
    savePath env = none := by
  unfold savePath
  rcases h with h | h <;> rw [h]
  cases env.fsResult <;> rfl

/-- Elementwise description of the parallel fan-out: image `j`'s slot holds
exactly `processImage` of image `j`'s own oracle. -/
theorem runImages_getElem? (envs : ℕ → ImageEnv) (n j : ℕ) (hj : j < n) :
    (runImages envs n)[j]? = some (processImage (envs j) j) := by
  unfold runImages
  rw [List.getElem?_map, List.getElem?_range hj]
  rfl

/-- On save failure the per-image result is the failure record and no
`createPerson` call is made. -/
theorem processImage_save_failure (env : ImageEnv) (index : ℕ)
    (h : savePath env = none) :
    processImage env index = (ImageResult.failure index "Failed to save image", []) := by
  unfold processImage
  rw [h]

/-- Every `createPerson` call of any image references the id of the `Image`
row its save path created. -/
theorem processImage_calls_reference_saved_row (env : ImageEnv) (index : ℕ)
    (c : PersonCall) (hc : c ∈ (processImage env index).2) :
    ∃ row, savePath env = some row ∧ c.imageId = row.id := by
  rcases hsp : savePath env with _ | row
  · rw [processImage_save_failure env index hsp] at hc
    cases hc
  · refine ⟨row, rfl, ?_⟩
    unfold processImage at hc
    rw [hsp] at hc
    rcases List.mem_map.mp hc with ⟨person, _, hcp⟩
    rw [← hcp]

/-- C4: for every image whose save path yields no result (filesystem write
failed or the `Image` insert returned the null sentinel), the per-image
result is the failure record (`success = false`) with an empty
`createPerson` call list — so no `Person` row is persisted for it; every
`createPerson` call of any image references the id of an `Image` row whose
save path succeeded; and each sibling's slot is a function of that
sibling's own oracle alone. -/
theorem orchestrator_save_failure_isolated (envs : ℕ → ImageEnv) (n i : ℕ)
    (hi : i < n)
    (hfail : (envs i).fsResult = none ∨ (envs i).imageRowId = none) :
    (runImages envs n)[i]? = some (ImageResult.failure i "Failed to save image", [])
    ∧ (∀ j, j < n → (runImages envs n)[j]? = some (processImage (envs j) j))
    ∧ (∀ j r calls, (runImages envs n)[j]? = some (r, calls) →
        ∀ c ∈ calls, ∃ row, savePath (envs j) = some row ∧ c.imageId = row.id) := by
  refine ⟨?_, fun j hj => runImages_getElem? envs n j hj, ?_⟩
  · rw [runImages_getElem? envs n i hi,
      processImage_save_failure (envs i) i (savePath_none (envs i) hfail)]
  · intro j r calls hj c hc
    have hjn : j < n := by
      by_contra hge
      have hnone : (runImages envs n)[j]? = none := by
        apply List.getElem?_eq_none
        unfold runImages
        rw [List.length_map, List.length_range]
        exact Nat.le_of_not_lt hge
      rw [hnone] at hj
      cases hj
    rw [runImages_getElem? envs n j hjn] at hj
    injection hj with hj
    have hcalls : calls = (processImage (envs j) j).2 := by rw [hj]
    rw [hcalls] at hc
    exact processImage_calls_reference_saved_row (envs j) j c hc

/-- A per-image oracle in which everything succeeds: the filesystem write
returns the deterministic names, `createImage` assigns id 11, one person is
detected, and its `createPerson` call succeeds with id 21. -/
def sampleEnvOk : ImageEnv where
  fsResult := some ("p-0.webp", "p-0_thumb.webp")
  imageRowId := some 11
  detection := [{ personID := 0, personConfidence := 0.9, helmetConfidence := 0.7,
                  hasHelmet := true, personBox := [0, 0, 500, 500],
                  helmetBox := some [0, 0, 100, 100] }]
  personRowId := fun _ => some 21

/-- A per-image oracle whose filesystem write failed. -/
def sampleEnvFail : ImageEnv where
  fsResult := none
  imageRowId := some 12
  detection := [{ personID := 0, personConfidence := 0.9, helmetConfidence := 0.7,
                  hasHelmet := true, personBox := [0, 0, 500, 500],
                  helmetBox := some [0, 0, 100, 100] }]
  personRowId := fun _ => some 22

/-- The spec's scenario: three images, storage fails for index 2 only. -/
def sampleEnvs : ℕ → ImageEnv := fun j => if j = 2 then sampleEnvFail else sampleEnvOk

/-- Witness for C4 at the spec's scenario (storage fails for image 2 of 3). -/
theorem orchestrator_save_failure_isolated_witness :
    (runImages sampleEnvs 3)[2]? = some (ImageResult.failure 2 "Failed to save image", [])
    ∧ (∀ j, j < 3 → (runImages sampleEnvs 3)[j]? = some (processImage (sampleEnvs j) j))
    ∧ (∀ j r calls, (runImages sampleEnvs 3)[j]? = some (r, calls) →
        ∀ c ∈ calls, ∃ row, savePath (sampleEnvs j) = some row ∧ c.imageId = row.id) :=
  orchestrator_save_failure_isolated sampleEnvs 3 2 (by decide) (Or.inl rfl)

/-! ## C7: response summary aggregation -/

/-- The `reduce` of `route.tsx` 415–418 equals the sum of `peopleDetected`
over the successful results. -/
theorem foldl_people_sum (l : List ImageResult) :
    ∀ n : ℕ,
      l.foldl (fun sum r => sum + (if r.isSuccess then r.peopleCount else 0)) n
        = n + ((l.filter ImageResult.isSuccess).map ImageResult.peopleCount).sum := by
  induction l with
  | nil => intro n; simp
  | cons r l ih =>
    intro n
    rcases h : r.isSuccess with _ | _
    · simp [h, ih n]
    · simp [h, List.filter_cons, ih (n + r.peopleCount), Nat.add_assoc]

/-- C7: in the `POST` response, `summary.totalImages` is the number of
extracted images, `summary.successfulImages` counts the per-image results
with `success = true`, `summary.failedImages` is their difference, and
`summary.totalPeopleDetected` is the sum of `peopleDetected` over the
successful per-image results. -/
theorem postSummary_aggregates (images : List ImageRecord) (envs : ℕ → ImageEnv) :
    postSummary images envs
      = { totalImages := images.length
          successfulImages :=
            (((runImages envs images.length).map Prod.fst).filter ImageResult.isSuccess).length
          failedImages := images.length -
            (((runImages envs images.length).map Prod.fst).filter ImageResult.isSuccess).length
          totalPeopleDetected :=
            ((((runImages envs images.length).map Prod.fst).filter
              ImageResult.isSuccess).map ImageResult.peopleCount).sum } := by
  simp only [postSummary, foldl_people_sum, Nat.zero_add]

end Helmet
